import Mathlib

/-!
Verification development for the readme-kit repository.

The first part embeds the actual TypeScript source under `src/` (the Fastify
health endpoint, the error-handler plugin and the environment configuration).
The second part models, from the specification document, the generalized
health-check core (probes, registry, aggregator, result cache, health
service) that the specification describes; that core has no implementation
in the repository, so its definitions are modelled from the spec's words.
-/

namespace ReadmeKit

/-! ## HTTP method and request model -/

/-- The HTTP methods Fastify can route (the standard set). -/
inductive Method
  | get
  | head
  | post
  | put
  | delete
  | options
  | patch
deriving DecidableEq

/-- Minimal model of a `FastifyRequest`: the health handlers ignore every
field of the request, so only the routing-relevant data is kept. -/
structure FastifyRequest where
  method : Method
  url : String
deriving DecidableEq

/-! ## `src/src/shared/types/health.types.ts` -/

/-- The literal type of `HealthResponse.status`: the only inhabitant is the
string literal `ok`. -/
inductive HealthStatus
  | ok
deriving DecidableEq

/-- Embedding of the `HealthResponse` interface: `{ status: 'ok' }`. -/
structure HealthResponse where
  status : HealthStatus
deriving DecidableEq

/-! ## `src/src/infrastructure/web/controllers/health.controller.ts` -/

/-- Embedding of `healthController`: it ignores the request (and the reply)
and returns the constant object whose `status` field is the literal `ok`. -/
def healthController (_request : FastifyRequest) : HealthResponse :=
  { status := HealthStatus.ok }

/-! ## Responses -/

/-- Body of the JSON error responses sent by `methodNotAllowedHandler` and by
the error-handler plugin: the fields `statusCode`, `error` and `message`. -/
structure ErrorBody where
  statusCode : Nat
  error : String
  message : String
deriving DecidableEq

/-- A response body is either a serialized `HealthResponse` or an error
object. -/
inductive Body
  | health (h : HealthResponse)
  | err (e : ErrorBody)
deriving DecidableEq

/-- An HTTP response: status code plus JSON body. -/
structure Response where
  status : Nat
  body : Body
deriving DecidableEq

/-! ## `src/src/infrastructure/web/routes/health.routes.ts` -/

/-- Embedding of the `methodNotAllowedHandler` closure defined inside
`healthRoutes`: it replies with status 405 and the fixed error object. -/
def methodNotAllowedHandler (_request : FastifyRequest) : Response :=
  { status := 405
    body := Body.err
      { statusCode := 405
        error := "Method Not Allowed"
        message := "GET method required for /status endpoint" } }

/-- The two handlers that `healthRoutes` registers on `/status`. -/
inductive RegisteredHandler
  | health
  | methodNotAllowed
deriving DecidableEq

/-- Running a registered handler on a request.  Fastify serializes the object
returned by `healthController` as a 200 JSON response. -/
def runHandler : RegisteredHandler → FastifyRequest → Response
  | RegisteredHandler.health, req =>
      { status := 200, body := Body.health (healthController req) }
  | RegisteredHandler.methodNotAllowed, req => methodNotAllowedHandler req

/-- Embedding of the route table that `healthRoutes` installs for `/status`:
`fastify.get` with `healthController`, and `fastify.post`, `fastify.put`,
`fastify.delete`, `fastify.patch` with `methodNotAllowedHandler`.  No other
method is registered by this file (in particular neither OPTIONS nor HEAD). -/
def healthRoutes : Method → Option RegisteredHandler
  | Method.get => some RegisteredHandler.health
  | Method.post => some RegisteredHandler.methodNotAllowed
  | Method.put => some RegisteredHandler.methodNotAllowed
  | Method.delete => some RegisteredHandler.methodNotAllowed
  | Method.patch => some RegisteredHandler.methodNotAllowed
  | Method.head => none
  | Method.options => none

/-! ## JavaScript truthiness helpers

The TypeScript source uses the logical-or operator on values of type
`number | undefined` and on strings.  In JavaScript, `x || d` yields `d`
exactly when `x` is falsy: for a possibly-undefined number that means
`undefined` or `0`; for a possibly-undefined string that means `undefined`
or the empty string. -/

/-- JavaScript `x || d` for `x : number | undefined` (numbers kept in `Nat`;
`none` is `undefined`, and `0` is falsy). -/
def jsOrNat : Option Nat → Nat → Nat
  | some v, d => if v = 0 then d else v
  | none, d => d

/-- JavaScript `x || d` for `x : string` (the empty string is falsy). -/
def jsOrStr (s d : String) : String :=
  if s = "" then d else s

/-- JavaScript `x || d` for `x : string | undefined` (`undefined` and the
empty string are falsy). -/
def jsOrStrOpt : Option String → String → String
  | some s, d => jsOrStr s d
  | none, d => d

/-! ## `src/src/infrastructure/web/plugins/error-handler.plugin.ts` -/

/-- Model of a `FastifyError` as the error-handler plugin reads it: `name`
and `message` are strings (every JavaScript `Error` carries both), while
`statusCode` is an optional number. -/
structure FastifyError where
  name : String
  message : String
  statusCode : Option Nat
deriving DecidableEq

/-- Embedding of the handler installed by `errorHandler` via
`fastify.setErrorHandler`: it computes
`statusCode = error.statusCode || 500` and replies with that status and the
body built from `statusCode`, `error.name || 'Error'` and `error.message`.
It is a total function: no error escapes it. -/
def errorHandler (e : FastifyError) : Response :=
  let statusCode := jsOrNat e.statusCode 500
  { status := statusCode
    body := Body.err
      { statusCode := statusCode
        error := jsOrStr e.name "Error"
        message := e.message } }

/-- The response the claim about the error handler predicts, written from
the claim's words for comparison with `errorHandler`: status equals
`error.statusCode` when that field is set and 500 otherwise, and the
`error` field of the body is `error.name` (the model's `name` is never
absent, so the claim's fallback to the string `Error` never applies). -/
def claimedErrorResponse (e : FastifyError) : Response :=
  let statusCode := e.statusCode.getD 500
  { status := statusCode
    body := Body.err
      { statusCode := statusCode
        error := e.name
        message := e.message } }

/-! ## `src/src/infrastructure/config/environment.ts` -/

/-- The slice of `process.env` the configuration reads: each variable is a
string when set and `none` when unset. -/
structure ProcessEnv where
  PORT : Option String
  NODE_ENV : Option String
  HOST : Option String
deriving DecidableEq

/-- JavaScript `parseInt(s, 10)`: skip leading whitespace, read an optional
sign, then the longest prefix of decimal digits; the result is NaN
(modelled as `none`) when that prefix is empty. -/
def jsParseInt10 (s : String) : Option Int :=
  let cs := (s.toList.dropWhile Char.isWhitespace)
  let signed : Int × List Char :=
    match cs with
    | '-' :: t => (-1, t)
    | '+' :: t => (1, t)
    | t => (1, t)
  let ds := signed.2.takeWhile Char.isDigit
  if ds.isEmpty then none
  else some (signed.1 * (ds.foldl (fun a c => a * 10 + (c.toNat - 48)) 0 : Nat))

/-- The configuration object, one field per entry of the source's `config`
literal. `port` is an `Option Int` because `parseInt` can produce NaN. -/
structure Config where
  port : Option Int
  nodeEnv : String
  host : String
deriving DecidableEq

/-- Embedding of the `config` object: `parseInt(process.env.PORT || '3000', 10)`,
`process.env.NODE_ENV || 'production'` and `process.env.HOST || '0.0.0.0'`. -/
def config (env : ProcessEnv) : Config :=
  { port := jsParseInt10 (jsOrStrOpt env.PORT "3000")
    nodeEnv := jsOrStrOpt env.NODE_ENV "production"
    host := jsOrStrOpt env.HOST "0.0.0.0" }

/-- The port the claim about the configuration predicts, written from the
claim's words for comparison with `config`: `parseInt(PORT, 10)` whenever
the `PORT` environment variable is set, and 3000 when it is unset. -/
def claimedPort (env : ProcessEnv) : Option Int :=
  match env.PORT with
  | some s => jsParseInt10 s
  | none => some 3000

/-! ## The generalized health-check core

The specification document describes a liveness/readiness health-check
subsystem (probe, registry, aggregator, result cache, health service) that
is not implemented anywhere in the repository.  Every definition below is
therefore modelled from the specification's own words (sections 3 to 5 of
the document), and the claims about the core are settled against this
model.  Time is modelled by natural-number instants and durations. -/

/-- Modelled from the spec: the probe kind, an enum of Liveness and
Readiness. -/
inductive Kind
  | liveness
  | readiness
deriving DecidableEq

/-- Modelled from the spec: the aggregate verdict enum with the three
values Healthy, Degraded and Unhealthy. -/
inductive Overall
  | healthy
  | degraded
  | unhealthy
deriving DecidableEq

/-- Modelled from the spec: the error recorded in a `ProbeResult`: an
individual probe timeout, the aggregate deadline, or an error returned by
the user-supplied check. -/
inductive ProbeErr
  | probeTimeout
  | aggregateDeadline
  | checkError (msg : String)
deriving DecidableEq

/-- Modelled from the spec: the output of running one probe once, with the
fields ProbeName, Healthy, Detail, Err, Duration and TimedOut. -/
structure ProbeResult where
  probeName : String
  healthy : Bool
  detail : String
  err : Option ProbeErr
  duration : Nat
  timedOut : Bool
deriving DecidableEq

/-- Modelled from the spec: one registered dependency check with its Name,
Kind and Timeout.  The user-supplied `Check` function is not stored in the
probe; its behaviour on a given run is supplied by the execution
environment handed to the aggregator (see `CheckOutcome`). -/
structure Probe where
  name : String
  kind : Kind
  timeout : Nat
deriving DecidableEq

/-- Modelled from the spec: what a probe's `Check` function would do on one
run if left unbounded: the verdict, detail and error it returns, and the
time it takes to return them.  One such outcome per probe, supplied by the
environment, stands in for the user's check function and the scheduler. -/
structure CheckOutcome where
  healthy : Bool
  detail : String
  err : Option String
  duration : Nat
deriving DecidableEq

/-- Modelled from the spec: running one probe under its own Timeout and the
aggregate deadline.  Whichever of completion, individual timeout and
deadline comes first decides the result: a completed check contributes its
own verdict (an error inside the check is captured with Healthy false);
exceeding the probe's Timeout yields Healthy false, TimedOut true and
ErrProbeTimeout; hitting the aggregate deadline first yields Healthy
false, TimedOut true and ErrAggregateDeadline. -/
def runProbe (deadline : Nat) (exec : Probe → CheckOutcome) (p : Probe) :
    ProbeResult :=
  let o := exec p
  if o.duration ≤ p.timeout ∧ o.duration ≤ deadline then
    match o.err with
    | some m =>
        { probeName := p.name, healthy := false, detail := o.detail
          err := some (ProbeErr.checkError m), duration := o.duration
          timedOut := false }
    | none =>
        { probeName := p.name, healthy := o.healthy, detail := o.detail
          err := none, duration := o.duration, timedOut := false }
  else if p.timeout ≤ deadline then
    { probeName := p.name, healthy := false, detail := ""
      err := some ProbeErr.probeTimeout, duration := p.timeout
      timedOut := true }
  else
    { probeName := p.name, healthy := false, detail := ""
      err := some ProbeErr.aggregateDeadline, duration := deadline
      timedOut := true }

/-- Modelled from the spec: the order-independent reduction rule — Overall
is Unhealthy if any result has Healthy false, otherwise Healthy. -/
def reduce (results : List ProbeResult) : Overall :=
  if results.any (fun r => !r.healthy) then Overall.unhealthy
  else Overall.healthy

/-- Modelled from the spec: the aggregate health verdict, with Overall,
Kind, the ordered Results and the EvaluatedAt timestamp. -/
structure Decision where
  overall : Overall
  kind : Kind
  results : List ProbeResult
  evaluatedAt : Nat
deriving DecidableEq

namespace Aggregator

/-- Modelled from the spec: `Run(kind, probes, deadline)` — run every probe
(each bounded by its own Timeout and by the aggregate deadline), collect
the results in the order the probes were given, and reduce them into a
Decision stamped with the evaluation time `now`. -/
def run (kind : Kind) (probes : List Probe) (deadline : Nat)
    (exec : Probe → CheckOutcome) (now : Nat) : Decision :=
  let results := probes.map (runProbe deadline exec)
  { overall := reduce results, kind := kind, results := results
    evaluatedAt := now }

end Aggregator

/-- Modelled from the spec: the registry validation errors
ErrDuplicateProbeName, ErrProbeNotFound and ErrInvalidTimeout. -/
inductive RegistryErr
  | duplicateProbeName
  | probeNotFound
  | invalidTimeout
deriving DecidableEq

namespace Registry

/-- Modelled from the spec: the registry is the list of registered probes
in registration order; `List(kind)` returns the probes of the requested
Kind, in registration order. -/
def list (reg : List Probe) (k : Kind) : List Probe :=
  reg.filter (fun p => p.kind == k)

/-- Modelled from the spec: `Register(probe)` fails with
ErrDuplicateProbeName if a probe of the same Name already exists,
regardless of Kind, and with ErrInvalidTimeout if the Timeout is not
positive; otherwise the probe is appended.  The spec fixes no order among
the validation checks; the duplicate check is performed first, matching
the spec's unconditional statement that registration of a duplicate name
fails with ErrDuplicateProbeName. -/
def register (reg : List Probe) (p : Probe) : Except RegistryErr (List Probe) :=
  if reg.any (fun q => q.name == p.name) then
    Except.error RegistryErr.duplicateProbeName
  else if p.timeout = 0 then
    Except.error RegistryErr.invalidTimeout
  else
    Except.ok (reg ++ [p])

end Registry

/-- Modelled from the spec: the Go-style zero Decision returned by the
cache on a miss. -/
def zeroDecision : Decision :=
  { overall := Overall.healthy, kind := Kind.liveness, results := []
    evaluatedAt := 0 }

/-- Modelled from the spec: a cache entry is a Decision plus its
ExpiresAt instant. -/
structure CacheEntry where
  decision : Decision
  expiresAt : Nat
deriving DecidableEq

/-- Modelled from the spec: the result cache keyed by Kind — Liveness and
Readiness are cached independently. -/
structure ResultCache where
  liveness : Option CacheEntry
  readiness : Option CacheEntry
deriving DecidableEq

namespace ResultCache

/-- The entry stored for a kind. -/
def entry (c : ResultCache) : Kind → Option CacheEntry
  | Kind.liveness => c.liveness
  | Kind.readiness => c.readiness

/-- Modelled from the spec: `Get(kind)` returns the decision and `true`
only if an entry exists for that kind and `now < ExpiresAt`; otherwise it
returns the zero Decision and `false`. -/
def get (c : ResultCache) (k : Kind) (now : Nat) : Decision × Bool :=
  match c.entry k with
  | some e => if now < e.expiresAt then (e.decision, true) else (zeroDecision, false)
  | none => (zeroDecision, false)

/-- Modelled from the spec: `Put(kind, decision, ttl)` unconditionally
overwrites the entry for that kind with expiry `now + ttl`. -/
def put (c : ResultCache) (k : Kind) (d : Decision) (ttl now : Nat) :
    ResultCache :=
  match k with
  | Kind.liveness => { c with liveness := some { decision := d, expiresAt := now + ttl } }
  | Kind.readiness => { c with readiness := some { decision := d, expiresAt := now + ttl } }

end ResultCache

namespace HealthService

/-- Modelled from the spec: the per-Kind state of the health service's
single-flight discipline.  `cache` is the cached Decision for the kind (if
any), `running` says whether an aggregator run is in flight, `checkCalls`
counts how many probe check invocations have been issued in total,
`waiters` are the callers waiting on the in-flight run, and `responses`
records which Decision each finished caller received. -/
structure State where
  cache : Option Decision
  running : Bool
  checkCalls : Nat
  waiters : List Nat
  responses : List (Nat × Decision)
deriving DecidableEq

/-- The state before any `Evaluate` call: no cache entry, no run in
flight, no probe invoked yet. -/
def init : State :=
  { cache := none, running := false, checkCalls := 0, waiters := []
    responses := [] }

/-- An observable event of the health service for one Kind: a caller's
`Evaluate` arriving, or the in-flight aggregator run completing with a
Decision. -/
inductive Event
  | arrive (caller : Nat)
  | finish (d : Decision)
deriving DecidableEq

/-- Modelled from the spec: one transition of the Idle/Running state
machine of `Evaluate`, for a registry with `n` probes of the evaluated
kind.  An arriving caller gets the cached Decision on a hit; on a miss it
either joins the waiters of the in-flight run (no new probe invocations)
or, when no run is in flight, starts one — invoking each of the `n`
probes' checks exactly once.  When the run finishes, its Decision is
cached and delivered to every waiter. -/
def step (n : Nat) (s : State) : Event → State
  | Event.arrive c =>
    match s.cache with
    | some d => { s with responses := s.responses ++ [(c, d)] }
    | none =>
      if s.running then
        { s with waiters := s.waiters ++ [c] }
      else
        { s with
          running := true
          checkCalls := s.checkCalls + n
          waiters := [c] }
  | Event.finish d =>
    if s.running then
      { cache := some d
        running := false
        checkCalls := s.checkCalls
        waiters := []
        responses := s.responses ++ s.waiters.map (fun c => (c, d)) }
    else s

/-- Folding a sequence of events from a state. -/
def exec (n : Nat) (s : State) (evs : List Event) : State :=
  evs.foldl (step n) s

end HealthService

/-! ## Theorems -/

/-- Claim C1: every GET request to `/status` is routed to `healthController`,
which returns the constant object whose `status` is `ok` (serialized as a
200 response); the handler reads nothing but its arguments and keeps no
state, so the result is the same for every request and is unaffected by any
sequence of prior requests. -/
theorem healthController_constant_ok (r r' : FastifyRequest) :
    healthRoutes Method.get = some RegisteredHandler.health ∧
    healthController r = { status := HealthStatus.ok } ∧
    runHandler RegisteredHandler.health r =
      { status := 200, body := Body.health { status := HealthStatus.ok } } ∧
    healthController r = healthController r' :=
  ⟨rfl, rfl, rfl, rfl⟩

/-- Claim C2 (counterexample): the claim says every non-GET method sent to
the health endpoint is answered with 405, but `healthRoutes` registers no
handler at all for OPTIONS (nor for HEAD), so no 405 response is produced
by this repository's code for an OPTIONS request: whatever answer the
framework gives for an unregistered route, it does not come from
`methodNotAllowedHandler`. -/
theorem status_options_has_no_route :
    Method.options ≠ Method.get ∧ healthRoutes Method.options = none :=
  ⟨by decide, rfl⟩

/-- Claim C2 (amended): for each of the four methods `healthRoutes`
actually registers besides GET — POST, PUT, DELETE and PATCH — the `/status`
route is handled by `methodNotAllowedHandler`, which responds with status
405 and the fixed error body, and which is not the health handler (so
`healthController` is not invoked). -/
theorem status_non_get_registered_methods_405 (m : Method)
    (hm : m = Method.post ∨ m = Method.put ∨ m = Method.delete ∨ m = Method.patch) :
    healthRoutes m = some RegisteredHandler.methodNotAllowed ∧
    (∀ req, runHandler RegisteredHandler.methodNotAllowed req =
      { status := 405
        body := Body.err
          { statusCode := 405
            error := "Method Not Allowed"
            message := "GET method required for /status endpoint" } }) ∧
    RegisteredHandler.methodNotAllowed ≠ RegisteredHandler.health := by
  rcases hm with rfl | rfl | rfl | rfl <;>
    exact ⟨rfl, fun _ => rfl, by decide⟩

/-- Claim C2 (witness): the amended statement at the concrete method POST
and a concrete request. -/
theorem status_non_get_registered_methods_405_witness :
    healthRoutes Method.post = some RegisteredHandler.methodNotAllowed ∧
    runHandler RegisteredHandler.methodNotAllowed
        { method := Method.post, url := "/status" } =
      { status := 405
        body := Body.err
          { statusCode := 405
            error := "Method Not Allowed"
            message := "GET method required for /status endpoint" } } :=
  ⟨(status_non_get_registered_methods_405 Method.post (Or.inl rfl)).1,
   (status_non_get_registered_methods_405 Method.post (Or.inl rfl)).2.1
     { method := Method.post, url := "/status" }⟩

/-- The reduction yields Unhealthy exactly when some result is unhealthy. -/
theorem reduce_eq_unhealthy_iff (rs : List ProbeResult) :
    reduce rs = Overall.unhealthy ↔ ∃ r ∈ rs, r.healthy = false := by
  by_cases h : ∃ r ∈ rs, r.healthy = false
  · have ha : rs.any (fun r => !r.healthy) = true := by
      obtain ⟨r, hr, hh⟩ := h
      exact List.any_eq_true.mpr ⟨r, hr, by simp [hh]⟩
    simp [reduce, ha, h]
  · have ha : rs.any (fun r => !r.healthy) = false := by
      rw [List.any_eq_false]
      intro r hr hfalse
      exact h ⟨r, hr, by simpa using hfalse⟩
    simp [reduce, ha, h]

/-- The reduction yields Healthy exactly when all results are healthy. -/
theorem reduce_eq_healthy_iff (rs : List ProbeResult) :
    reduce rs = Overall.healthy ↔ ∀ r ∈ rs, r.healthy = true := by
  by_cases h : ∃ r ∈ rs, r.healthy = false
  · have ha : rs.any (fun r => !r.healthy) = true := by
      obtain ⟨r, hr, hh⟩ := h
      exact List.any_eq_true.mpr ⟨r, hr, by simp [hh]⟩
    simp only [reduce, ha, if_true]
    obtain ⟨r, hr, hh⟩ := h
    constructor
    · intro hcon; exact absurd hcon (by decide)
    · intro hall; exact absurd (hall r hr) (by simp [hh])
  · have ha : rs.any (fun r => !r.healthy) = false := by
      rw [List.any_eq_false]
      intro r hr hfalse
      exact h ⟨r, hr, by simpa using hfalse⟩
    simp only [reduce, ha, if_false, Bool.false_eq_true]
    push_neg at h
    constructor
    · intro _ r hr
      cases hb : r.healthy with
      | true => rfl
      | false => exact absurd hb (h r hr)
    · intro _; trivial

/-- The reduction never yields Degraded. -/
theorem reduce_ne_degraded (rs : List ProbeResult) :
    reduce rs ≠ Overall.degraded := by
  unfold reduce
  split <;> decide

/-- Claim C3: for every Decision an aggregation run produces, Overall is
Unhealthy exactly when some result in Results is unhealthy, Healthy exactly
when all results are healthy, and Degraded is never produced (the model has
no severity policy). -/
theorem aggregator_overall_characterization
    (kind : Kind) (probes : List Probe) (deadline : Nat)
    (exec : Probe → CheckOutcome) (now : Nat) :
    ((Aggregator.run kind probes deadline exec now).overall = Overall.unhealthy ↔
      ∃ r ∈ (Aggregator.run kind probes deadline exec now).results,
        r.healthy = false) ∧
    ((Aggregator.run kind probes deadline exec now).overall = Overall.healthy ↔
      ∀ r ∈ (Aggregator.run kind probes deadline exec now).results,
        r.healthy = true) ∧
    (Aggregator.run kind probes deadline exec now).overall ≠ Overall.degraded :=
  ⟨reduce_eq_unhealthy_iff _, reduce_eq_healthy_iff _, reduce_ne_degraded _⟩

/-- Claim C4: running the aggregator on the empty probe list returns the
vacuously healthy Decision with empty Results, for every kind, deadline,
execution environment and evaluation time. -/
theorem aggregator_empty_probes_healthy
    (kind : Kind) (deadline : Nat) (exec : Probe → CheckOutcome) (now : Nat) :
    Aggregator.run kind [] deadline exec now =
      { overall := Overall.healthy, kind := kind, results := []
        evaluatedAt := now } :=
  rfl

/-- Claim C5: from a state with no cache entry, two Evaluate calls arriving
before the shared run finishes trigger exactly one aggregator run — the
probe checks are invoked once per probe of the kind (N total, not 2N) —
and both callers receive the Decision of that one run. -/
theorem concurrent_evaluate_single_run
    (reg : List Probe) (k : Kind) (c1 c2 : Nat) (d : Decision) :
    (HealthService.exec (Registry.list reg k).length HealthService.init
        [HealthService.Event.arrive c1, HealthService.Event.arrive c2,
         HealthService.Event.finish d]).checkCalls
      = (Registry.list reg k).length ∧
    (c1, d) ∈ (HealthService.exec (Registry.list reg k).length HealthService.init
        [HealthService.Event.arrive c1, HealthService.Event.arrive c2,
         HealthService.Event.finish d]).responses ∧
    (c2, d) ∈ (HealthService.exec (Registry.list reg k).length HealthService.init
        [HealthService.Event.arrive c1, HealthService.Event.arrive c2,
         HealthService.Event.finish d]).responses := by
  simp [HealthService.exec, HealthService.step, HealthService.init, List.foldl]

/-- Every branch of `runProbe` reports the probe's own name. -/
theorem runProbe_probeName (deadline : Nat) (exec : Probe → CheckOutcome)
    (p : Probe) : (runProbe deadline exec p).probeName = p.name := by
  unfold runProbe
  dsimp only
  split
  · split <;> rfl
  · split <;> rfl

/-- Mapping `runProbe` over a probe list keeps the names in order. -/
theorem map_runProbe_names (deadline : Nat) (exec : Probe → CheckOutcome)
    (probes : List Probe) :
    (probes.map (runProbe deadline exec)).map (fun r => r.probeName)
      = probes.map (fun p => p.name) := by
  induction probes with
  | nil => rfl
  | cons p t ih => simp [runProbe_probeName, ih]

/-- Claim C6: the results of an aggregation run are listed in exactly the
order in which `Registry.list` returned the probes (registration order),
for every execution environment — in particular for every assignment of
check durations, hence for every order in which the checks complete. -/
theorem aggregator_results_preserve_registration_order
    (reg : List Probe) (kind : Kind) (deadline : Nat)
    (exec : Probe → CheckOutcome) (now : Nat) :
    (Aggregator.run kind (Registry.list reg kind) deadline exec now).results.map
        (fun r => r.probeName)
      = (Registry.list reg kind).map (fun p => p.name) :=
  map_runProbe_names deadline exec (Registry.list reg kind)

/-- Claim C7: registering a probe whose name is already taken — by a probe
of either kind — fails with ErrDuplicateProbeName, and the originally
registered probe is still in the registry's list for its kind (the
rejected call returns an error, so the registry value is unchanged). -/
theorem register_duplicate_name_rejected
    (reg : List Probe) (p q : Probe) (hq : q ∈ reg) (hname : q.name = p.name) :
    Registry.register reg p = Except.error RegistryErr.duplicateProbeName ∧
    q ∈ Registry.list reg q.kind := by
  constructor
  · have ha : reg.any (fun r => r.name == p.name) = true :=
      List.any_eq_true.mpr ⟨q, hq, by simp [hname]⟩
    simp [Registry.register, ha]
  · simp [Registry.list, List.mem_filter, hq]

/-- Claim C7 (witness): a concrete registry holding a readiness probe named
db rejects a liveness probe of the same name. -/
theorem register_duplicate_name_rejected_witness :
    Registry.register [{ name := "db", kind := Kind.readiness, timeout := 5 }]
        { name := "db", kind := Kind.liveness, timeout := 7 }
      = Except.error RegistryErr.duplicateProbeName ∧
    ({ name := "db", kind := Kind.readiness, timeout := 5 } : Probe) ∈
      Registry.list [{ name := "db", kind := Kind.readiness, timeout := 5 }]
        Kind.readiness :=
  register_duplicate_name_rejected
    [{ name := "db", kind := Kind.readiness, timeout := 5 }]
    { name := "db", kind := Kind.liveness, timeout := 7 }
    { name := "db", kind := Kind.readiness, timeout := 5 }
    (by simp) rfl

/-- Claim C8: `Get` answers with the stored decision and `true` exactly
when an entry for the kind exists and `now` is before its expiry; in every
other case — no entry, or an expired one — it answers with the zero
Decision and `false`.  Liveness and Readiness are looked up in independent
entries. -/
theorem cache_get_characterization (c : ResultCache) (k : Kind) (now : Nat) :
    ((c.get k now).2 = true ↔ ∃ e, c.entry k = some e ∧ now < e.expiresAt) ∧
    (∀ e, c.entry k = some e → now < e.expiresAt →
      c.get k now = (e.decision, true)) ∧
    ((c.get k now).2 = false → c.get k now = (zeroDecision, false)) := by
  refine ⟨?_, ?_, ?_⟩
  · cases h : c.entry k with
    | none => simp [ResultCache.get, h]
    | some e =>
        by_cases hlt : now < e.expiresAt <;> simp [ResultCache.get, h, hlt]
  · intro e he hlt
    simp [ResultCache.get, he, hlt]
  · intro hf
    cases h : c.entry k with
    | none => simp [ResultCache.get, h]
    | some e =>
        by_cases hlt : now < e.expiresAt
        · exact absurd (by simp [ResultCache.get, h, hlt] : (c.get k now).2 = true)
            (by simp [hf])
        · simp [ResultCache.get, h, hlt]

/-- Claim C9 (counterexample): the claim reads the error handler as using
`statusCode` whenever the field is set and `name` whenever it is present,
but the source uses JavaScript logical-or, which also replaces the falsy
values 0 and the empty string: on an error with `name` the empty string and
`statusCode` 0 the handler answers 500 with error label `Error`, not 0 with
an empty label. -/
theorem errorHandler_falsy_fields_differ :
    errorHandler { name := "", message := "boom", statusCode := some 0 } ≠
      claimedErrorResponse { name := "", message := "boom", statusCode := some 0 } := by
  decide

/-- Claim C9 (amended): the error handler's response status equals
`error.statusCode` whenever that field is set and nonzero, and 500 when it
is unset or 0; the body carries that same status, the error label
`error.name` when nonempty (the string `Error` otherwise) and the error's
message.  The handler is a total function, so no error escapes it
unhandled. -/
theorem errorHandler_status_and_body (e : FastifyError) :
    (∀ v, e.statusCode = some v → v ≠ 0 → (errorHandler e).status = v) ∧
    ((e.statusCode = none ∨ e.statusCode = some 0) →
      (errorHandler e).status = 500) ∧
    (errorHandler e).body = Body.err
      { statusCode := (errorHandler e).status
        error := if e.name = "" then "Error" else e.name
        message := e.message } := by
  refine ⟨?_, ?_, ?_⟩
  · intro v hv hv0
    simp [errorHandler, jsOrNat, hv, hv0]
  · rintro (h | h) <;> simp [errorHandler, jsOrNat, h]
  · simp [errorHandler, jsOrStr]

/-- Claim C10 (counterexample): the claim says `config.port` equals
`parseInt(PORT, 10)` whenever the PORT environment variable is set, but
JavaScript logical-or also replaces the empty string: with PORT set to the
empty string the source parses the default and yields 3000, while
`parseInt` of the empty string is NaN. -/
theorem config_port_empty_not_parseInt :
    (config { PORT := some "", NODE_ENV := none, HOST := none }).port ≠
      claimedPort { PORT := some "", NODE_ENV := none, HOST := none } := by
  decide

/-- Claim C10 (amended): `config.port` equals `parseInt(PORT, 10)` whenever
PORT is set and nonempty — in particular no validation is applied, so a
nonempty PORT with no leading digits yields NaN (`none`) — and equals 3000
when PORT is unset or empty; `nodeEnv` and `host` default to `production`
and `0.0.0.0` when their variables are unset. -/
theorem config_defaults_and_parse (env : ProcessEnv) :
    (∀ s, env.PORT = some s → s ≠ "" → (config env).port = jsParseInt10 s) ∧
    ((env.PORT = none ∨ env.PORT = some "") → (config env).port = some 3000) ∧
    (env.NODE_ENV = none → (config env).nodeEnv = "production") ∧
    (env.HOST = none → (config env).host = "0.0.0.0") := by
  refine ⟨?_, ?_, ?_, ?_⟩
  · intro s hs hne
    simp [config, jsOrStrOpt, jsOrStr, hs, hne]
  · rintro (h | h) <;> simp [config, jsOrStrOpt, jsOrStr, h] <;> decide
  · intro h
    simp [config, jsOrStrOpt, h]
  · intro h
    simp [config, jsOrStrOpt, h]

end ReadmeKit
